import Mathlib

/- Verification of the wslbridge backend I/O engine.

   This file is a shallow embedding of the flow-control, codec and supervisor
   logic of src/backend/wslbridge-backend.cc and src/common/SocketIo.h,
   together with theorems settling the specified properties.

   Conventions: C int32 quantities that the program keeps small (window sizes,
   credits, byte counts) are modelled as Int; raw wire bytes are modelled as
   elements of an arbitrary type; fixed-size packet records are modelled both
   at the byte level (for the codec) and at the record level (for the packet
   handler and the supervisor). -/

/-! Window parameters (src/common/SocketIo.h, struct WindowParams):
    size is the maximum number of bytes in flight, threshold the minimum
    remaining window at which the pump initiates I/O. main (lines 216-219)
    asserts 1 <= threshold <= size. -/

structure WindowParams where
  size : Int
  threshold : Int
deriving DecidableEq

/-! The PTY-to-socket worker and the control reader, as an interleaved
    transition system.

    ptyToSocketThread (wslbridge-backend.cc lines 103-136) keeps a local
    credit counter locWindow, initially windowSize.  Its helper hasWindow
    optionally folds the shared atomic counter ioloop->window into locWindow
    by an exchange-to-zero (lines 108-115).  At the loop top it reads from
    the pty at most min(32*1024, locWindow) bytes, writes them to the data
    socket, and subtracts them from locWindow (lines 122-134).

    handlePacket (lines 147-159) on IncreaseWindow(iw) asserts
    0 <= window <= size and 0 <= iw <= size - window, then adds iw to the
    shared counter; it runs on the control-reader thread and may interleave
    anywhere.

    The state also carries two history variables: sent, the cumulative bytes
    written to the data socket, and credits, the cumulative IncreaseWindow
    deltas received. -/

inductive PumpPC where
  | top
  | wait
  | read
  | done
deriving DecidableEq

structure PumpState where
  pc : PumpPC
  locWindow : Int
  window : Int
  sent : Int
  credits : Int
deriving DecidableEq

/-- Initial state of the worker (line 107: locWindow = windowSize; the shared
    counter starts at 0, IoLoop line 70). -/
def initPump (wp : WindowParams) : PumpState :=
  { pc := .top, locWindow := wp.size, window := 0, sent := 0, credits := 0 }

/-- The byte count requested from the pty by one read
    (line 124: min(buf.size(), locWindow) with a 32 KiB buffer). -/
def ptyReadRequest (locWindow : Int) : Int := min (32 * 1024) locWindow

inductive PumpEv where
  | ready
  | foldReady
  | foldWait
  | wakeReady
  | wakeSpin
  | send (n : Int)
  | eof
  | recv (iw : Int)
deriving DecidableEq

/-- One interleaved step of the PTY-to-socket worker or of the control
    reader handling an IncreaseWindow packet.  The guards are exactly the
    branch conditions and the asserted preconditions of the source; the
    exchange-to-zero fold is not guarded by the assertion at line 111,
    which is a checked condition whose validity is the subject of the
    theorems below. -/
inductive PumpStep (wp : WindowParams) : PumpEv → PumpState → PumpState → Prop where
  | ready (s : PumpState) :
      s.pc = .top → wp.threshold ≤ s.locWindow →
      PumpStep wp .ready s { s with pc := .read }
  | foldReady (s : PumpState) :
      s.pc = .top → s.locWindow < wp.threshold →
      wp.threshold ≤ s.locWindow + s.window →
      PumpStep wp .foldReady s
        { s with pc := .read, locWindow := s.locWindow + s.window, window := 0 }
  | foldWait (s : PumpState) :
      s.pc = .top → s.locWindow < wp.threshold →
      s.locWindow + s.window < wp.threshold →
      PumpStep wp .foldWait s
        { s with pc := .wait, locWindow := s.locWindow + s.window, window := 0 }
  | wakeReady (s : PumpState) :
      s.pc = .wait → wp.threshold ≤ s.locWindow + s.window →
      PumpStep wp .wakeReady s
        { s with pc := .read, locWindow := s.locWindow + s.window, window := 0 }
  | wakeSpin (s : PumpState) :
      s.pc = .wait → s.locWindow + s.window < wp.threshold →
      PumpStep wp .wakeSpin s
        { s with pc := .wait, locWindow := s.locWindow + s.window, window := 0 }
  | send (s : PumpState) (n : Int) :
      s.pc = .read → 1 ≤ n → n ≤ ptyReadRequest s.locWindow →
      PumpStep wp (.send n) s
        { s with pc := .top, locWindow := s.locWindow - n, sent := s.sent + n }
  | eof (s : PumpState) :
      s.pc = .read →
      PumpStep wp .eof s { s with pc := .done }
  | recv (s : PumpState) (iw : Int) :
      0 ≤ s.window → s.window ≤ wp.size → 0 ≤ iw → iw ≤ wp.size - s.window →
      PumpStep wp (.recv iw) s
        { s with window := s.window + iw, credits := s.credits + iw }

/-- States reachable by the interleaved system; every IncreaseWindow step in
    such a run satisfied the control-reader assertion at lines 153-154. -/
inductive PumpReach (wp : WindowParams) : PumpState → Prop where
  | init : PumpReach wp (initPump wp)
  | step {s t : PumpState} {e : PumpEv} :
      PumpReach wp s → PumpStep wp e s t → PumpReach wp t

/-- Environmental assumption on the frontend: an IncreaseWindow delta never
    exceeds the bytes currently in flight (sent but not yet credited), i.e.
    the frontend acknowledges only bytes it actually received. -/
def goodRecv : PumpEv → PumpState → Prop
  | .recv iw, s => iw ≤ s.sent - s.credits
  | _, _ => True

/-- States reachable when the frontend moreover satisfies goodRecv. -/
inductive GoodReach (wp : WindowParams) : PumpState → Prop where
  | init : GoodReach wp (initPump wp)
  | step {s t : PumpState} {e : PumpEv} :
      GoodReach wp s → PumpStep wp e s t → goodRecv e s → GoodReach wp t

/-! The control-packet codec (src/common/SocketIo.h, readControlSocketThread,
    lines 69-91), modelled at the byte level.  The buffer holds 256 records
    of sizeof(Packet) = 8 bytes (4-byte enum discriminator plus a 4-byte
    union padded to alignment 4).  Each successful read appends a chunk of
    bytes; the thread then dispatches accum / sizeof(Packet) whole records
    in order and moves the remaining accum % sizeof(Packet) bytes to the
    front of the buffer. -/

def packetBytes : Nat := 8

def ctrlBufPackets : Nat := 256

def ctrlBufBytes : Nat := ctrlBufPackets * packetBytes

/-- Reference decomposition of a byte stream into whole fixed-size records
    plus a trailing remainder shorter than one record.  This is the
    specification-side description of the packets contained in a stream. -/
def splitPackets (P : Nat) (l : List α) : List (List α) × List α :=
  if h : 0 < P ∧ P ≤ l.length then
    let rest := splitPackets P (List.drop P l)
    (List.take P l :: rest.1, rest.2)
  else
    ([], l)
termination_by l.length
decreasing_by
  simp only [List.length_drop]
  omega

structure ReaderState (α : Type) where
  dispatched : List (List α)
  acc : List α
deriving DecidableEq

def initReader : ReaderState α := { dispatched := [], acc := [] }

/-- One iteration of readControlSocketThread after a successful read
    delivering chunk: with data the buffer contents, fullPacketCount =
    accum / sizeof(Packet) records buf[0..fullPacketCount) are dispatched in
    order (lines 83-86), and the trailing partial record is moved to the
    buffer start (lines 87-89). -/
def readerIteration (st : ReaderState α) (chunk : List α) : ReaderState α :=
  let data := st.acc ++ chunk
  { dispatched := st.dispatched ++
      (List.range (data.length / packetBytes)).map
        (fun i => (List.drop (i * packetBytes) data).take packetBytes),
    acc := List.drop (data.length / packetBytes * packetBytes) data }

/-- The reader loop over a whole sequence of successful reads. -/
def readerRun (chunks : List (List α)) : ReaderState α :=
  chunks.foldl readerIteration initReader

/-! Control packets at the record level (src/common/SocketIo.h, struct
    Packet): a 4-byte discriminator followed by a 4-byte union.  The
    discriminator is modelled as the raw int value carried on the wire
    (the enum class is backed by int and the record is received by a plain
    byte copy, so any int value can arrive); the union is modelled as the
    int32 value of its active member. -/

def setSizeTag : Int := 0

def increaseWindowTag : Int := 1

def childExitStatusTag : Int := 2

structure Packet where
  type : Int
  u : Int
deriving DecidableEq

/-- Raw 32 bits of the union member, for reading it as the TermSize pair. -/
def rawBits32 (x : Int) : Int := x % 4294967296

/-- Observable effect of handlePacket (wslbridge-backend.cc lines 138-167)
    on one control packet. -/
inductive HandleAction where
  | setSize (cols rows : Int)
  | increaseWindow (amount : Int)
  | fatalExit (diagnostic : String) (code : Nat)
deriving DecidableEq

/-- handlePacket, wslbridge-backend.cc lines 138-167: SetSize issues the
    resize ioctl with the two 16-bit fields of the union; IncreaseWindow
    updates the shared window counter (modelled separately by PumpStep.recv);
    every other discriminator prints
    "internal error: unexpected packet %d" with the offending value to
    stderr and calls exit(1) (lines 161-165). -/
def handlePacket (p : Packet) : HandleAction :=
  if p.type = setSizeTag then
    .setSize (rawBits32 p.u % 65536) (rawBits32 p.u / 65536)
  else if p.type = increaseWindowTag then
    .increaseWindow p.u
  else
    .fatalExit ("internal error: unexpected packet " ++ toString p.type) 1

/-! The supervisor (mainLoop, wslbridge-backend.cc lines 169-203) and the
    process exit paths. -/

/-- Outcome of the waitpid call at line 183. -/
inductive ReapResult where
  | ok (status : Nat)
  | failed
deriving DecidableEq

/-- WIFEXITED on the Linux wait status encoding: the low 7 bits are zero
    exactly for a normal exit. -/
def wIfExited (status : Nat) : Bool := status % 128 == 0

/-- WEXITSTATUS on the Linux wait status encoding: bits 8..15. -/
def wExitStatus (status : Nat) : Nat := status / 256 % 256

/-- Wait status encoding of a normal exit with the given exit code:
    the low 8 bits of the code placed in bits 8..15. -/
def encodeExited (code : Nat) : Nat := code % 256 * 256

/-- The status decoding at lines 187-193: a normal exit yields WEXITSTATUS,
    any abnormal termination yields the literal 1. -/
def decodedExitStatus (status : Nat) : Nat :=
  if wIfExited status then wExitStatus status else 1

/-- The single packet built and written at lines 194-196. -/
def childExitPacket (status : Nat) : Packet :=
  { type := childExitStatusTag, u := (decodedExitStatus status : Int) }

/-- Events of the supervisor thread in program order. -/
inductive SupervisorEv where
  | waitpidReturn (r : ReapResult)
  | perrorExitEv (msg : String) (code : Nat)
  | writeControl (p : Packet)
  | joinWorkers
deriving DecidableEq

/-- mainLoop after the workers are spawned (lines 182-202): waitpid, then
    either perror and exit(1) on failure, or decode the status, write the
    single ChildExitStatus packet via writePacket (the only call site of
    writePacket, line 196, itself the only writer of packets to the control
    socket), and join the three workers. -/
def mainLoopEvents : ReapResult → List SupervisorEv
  | .failed => [.waitpidReturn .failed, .perrorExitEv "waitpid failed" 1]
  | .ok status => [.waitpidReturn (.ok status),
      .writeControl (childExitPacket status), .joinWorkers]

/-- The control-socket packet writes contained in a supervisor event list. -/
def controlWritesOf (evs : List SupervisorEv) : List Packet :=
  evs.filterMap fun e =>
    match e with
    | .writeControl p => some p
    | _ => none

/-- The ways a backend process run can end, with the source location of the
    corresponding exit: cleanTeardown is main returning 0 after mainLoop
    (line 228); connectionBroken is connectionBrokenAbort (lines 76-79);
    protocolViolation is the handlePacket default branch (lines 161-165);
    waitpidFailure is the waitpid error branch (lines 183-186).  The zero or
    error read in readControlSocketThread (SocketIo.h lines 78-80) invokes
    its readFailure hook, instantiated with connectionBrokenAbort at
    line 177, so it is the connectionBroken outcome. -/
inductive SessionOutcome where
  | cleanTeardown
  | connectionBroken
  | protocolViolation
  | waitpidFailure
deriving DecidableEq

/-- Process exit code for each outcome, read off the exit call sites named
    in SessionOutcome. -/
def backendExitCode : SessionOutcome → Nat
  | .cleanTeardown => 0
  | .connectionBroken => 1
  | .protocolViolation => 1
  | .waitpidFailure => 1

/-! Mutex and condition-variable discipline of the IncreaseWindow handler
    (wslbridge-backend.cc lines 147-159), as the micro-event sequence the
    handler executes: the lock_guard acquires the window mutex (line 155),
    the shared counter is incremented (line 156), the lock_guard scope
    closes and releases the mutex (line 157), and only then notify_one is
    called (line 158). -/

inductive SyncEv where
  | lockMutex
  | addWindow (iw : Int)
  | unlockMutex
  | notifyOne
deriving DecidableEq, BEq

/-- Micro-event sequence of the IncreaseWindow case of handlePacket. -/
def increaseWindowSync (iw : Int) : List SyncEv :=
  [.lockMutex, .addWindow iw, .unlockMutex, .notifyOne]

/-- Whether the window mutex is held when the event at position i starts:
    strictly more acquisitions than releases among the first i events. -/
def mutexHeldAt (evs : List SyncEv) (i : Nat) : Bool :=
  decide ((evs.take i).count SyncEv.unlockMutex < (evs.take i).count SyncEv.lockMutex)

/-! Helper lemmas about splitPackets. -/

theorem splitPackets_pos (P : Nat) (l : List α) (hP : 0 < P) (hl : P ≤ l.length) :
    splitPackets P l =
      (List.take P l :: (splitPackets P (List.drop P l)).1,
        (splitPackets P (List.drop P l)).2) := by
  rw [splitPackets]
  rw [dif_pos ⟨hP, hl⟩]

theorem splitPackets_neg (P : Nat) (l : List α) (h : ¬(0 < P ∧ P ≤ l.length)) :
    splitPackets P l = ([], l) := by
  rw [splitPackets]
  rw [dif_neg h]

theorem splitPackets_flatten (P : Nat) (l : List α) :
    (splitPackets P l).1.flatten ++ (splitPackets P l).2 = l := by
  by_cases h : 0 < P ∧ P ≤ l.length
  · have ih := splitPackets_flatten P (List.drop P l)
    rw [splitPackets_pos P l h.1 h.2]
    simp only [List.flatten_cons, List.append_assoc, ih, List.take_append_drop]
  · rw [splitPackets_neg P l h]
    simp
termination_by l.length
decreasing_by
  simp only [List.length_drop]
  omega

theorem splitPackets_mem_length (P : Nat) (l c : List α)
    (hc : c ∈ (splitPackets P l).1) : c.length = P := by
  by_cases h : 0 < P ∧ P ≤ l.length
  · rw [splitPackets_pos P l h.1 h.2] at hc
    rcases List.mem_cons.mp hc with h1 | h2
    · rw [h1, List.length_take]
      omega
    · exact splitPackets_mem_length P (List.drop P l) c h2
  · rw [splitPackets_neg P l h] at hc
    simp at hc
termination_by l.length
decreasing_by
  simp only [List.length_drop]
  omega

theorem splitPackets_snd_length (P : Nat) (hP : 0 < P) (l : List α) :
    (splitPackets P l).2.length = l.length % P := by
  by_cases h : 0 < P ∧ P ≤ l.length
  · have ih := splitPackets_snd_length P hP (List.drop P l)
    rw [splitPackets_pos P l h.1 h.2]
    simp only [ih, List.length_drop]
    exact (Nat.mod_eq_sub_mod h.2).symm
  · rw [splitPackets_neg P l h]
    have hlt : l.length < P := by omega
    simp [Nat.mod_eq_of_lt hlt]
termination_by l.length
decreasing_by
  simp only [List.length_drop]
  omega

theorem splitPackets_append (P : Nat) (a b : List α) :
    splitPackets P (a ++ b) =
      ((splitPackets P a).1 ++ (splitPackets P ((splitPackets P a).2 ++ b)).1,
        (splitPackets P ((splitPackets P a).2 ++ b)).2) := by
  by_cases h : 0 < P ∧ P ≤ a.length
  · have ih := splitPackets_append P (List.drop P a) b
    have hl : P ≤ (a ++ b).length := by
      simp only [List.length_append]
      omega
    rw [splitPackets_pos P (a ++ b) h.1 hl, splitPackets_pos P a h.1 h.2,
      List.take_append_of_le_length h.2, List.drop_append_of_le_length h.2, ih]
    simp
  · rw [splitPackets_neg P a h]
    simp
termination_by a.length
decreasing_by
  simp only [List.length_drop]
  omega

theorem range_slices_eq (P : Nat) (hP : 0 < P) (l : List α) :
    (List.range (l.length / P)).map (fun i => (List.drop (i * P) l).take P) =
      (splitPackets P l).1 := by
  by_cases h : 0 < P ∧ P ≤ l.length
  · have ih := range_slices_eq P hP (List.drop P l)
    have hdiv : l.length / P = (List.drop P l).length / P + 1 := by
      rw [List.length_drop]
      exact Nat.div_eq_sub_div hP h.2
    have hfun : ((fun i => (List.drop (i * P) l).take P) ∘ Nat.succ) =
        fun i => (List.drop (i * P) (List.drop P l)).take P := by
      funext i
      simp [Function.comp, List.drop_drop, Nat.succ_mul, Nat.add_comm]
    rw [splitPackets_pos P l h.1 h.2, hdiv, List.range_succ_eq_map, List.map_cons,
      List.map_map, hfun, ih]
    simp
  · rw [splitPackets_neg P l h]
    have hlt : l.length < P := by omega
    simp [Nat.div_eq_of_lt hlt]
termination_by l.length
decreasing_by
  simp only [List.length_drop]
  omega

theorem drop_full_eq (P : Nat) (hP : 0 < P) (l : List α) :
    List.drop (l.length / P * P) l = (splitPackets P l).2 := by
  by_cases h : 0 < P ∧ P ≤ l.length
  · have ih := drop_full_eq P hP (List.drop P l)
    have hdiv : l.length / P = (List.drop P l).length / P + 1 := by
      rw [List.length_drop]
      exact Nat.div_eq_sub_div hP h.2
    rw [splitPackets_pos P l h.1 h.2, hdiv, Nat.succ_mul, ← ih]
    simp [List.drop_drop, Nat.add_comm]
  · rw [splitPackets_neg P l h]
    have hlt : l.length < P := by omega
    simp [Nat.div_eq_of_lt hlt]
termination_by l.length
decreasing_by
  simp only [List.length_drop]
  omega

/-- readerIteration computes exactly the splitPackets decomposition of the
    buffered plus newly read bytes. -/
theorem readerIteration_eq (st : ReaderState α) (chunk : List α) :
    readerIteration st chunk =
      { dispatched := st.dispatched ++ (splitPackets packetBytes (st.acc ++ chunk)).1,
        acc := (splitPackets packetBytes (st.acc ++ chunk)).2 } := by
  dsimp only [readerIteration]
  rw [range_slices_eq packetBytes (by decide) (st.acc ++ chunk),
    drop_full_eq packetBytes (by decide) (st.acc ++ chunk)]

/-- After any sequence of reads, the dispatched records and the retained
    remainder are exactly the splitPackets decomposition of the whole
    arrived stream. -/
theorem readerRun_spec (chunks : List (List α)) :
    (readerRun chunks).dispatched = (splitPackets packetBytes chunks.flatten).1 ∧
      (readerRun chunks).acc = (splitPackets packetBytes chunks.flatten).2 := by
  induction chunks using List.reverseRecOn with
  | nil =>
    rw [show (List.flatten ([] : List (List α))) = [] from rfl,
      splitPackets_neg packetBytes ([] : List α) (by simp [packetBytes])]
    exact ⟨rfl, rfl⟩
  | append_singleton cs c ih =>
    have hrun : readerRun (cs ++ [c]) = readerIteration (readerRun cs) c := by
      simp [readerRun, List.foldl_append]
    rw [hrun, readerIteration_eq, ih.1, ih.2, List.flatten_append,
      show List.flatten [c] = c by simp, splitPackets_append packetBytes cs.flatten c]
    exact ⟨rfl, rfl⟩

/-! Helper invariants of the pump transition system. -/

/-- Conservation of credit: both counters stay non-negative and the two
    counters plus the bytes sent always equal the initial size plus the
    credits received.  This holds for every run in which the IncreaseWindow
    guard (the control-reader assertion) held, with no further assumption
    on the frontend. -/
theorem pumpReach_invariant (wp : WindowParams) (hsize : 1 ≤ wp.size)
    {s : PumpState} (hs : PumpReach wp s) :
    0 ≤ s.locWindow ∧ 0 ≤ s.window ∧
      s.locWindow + s.window + s.sent = wp.size + s.credits := by
  induction hs with
  | init =>
    simp only [initPump]
    omega
  | step hr hstep ih =>
    cases hstep <;> dsimp only [ptyReadRequest] at * <;> omega

/-- Under the goodRecv environmental assumption the system additionally
    maintains credits ≤ sent, hence locWindow + window ≤ size. -/
theorem goodReach_invariant (wp : WindowParams) (hsize : 1 ≤ wp.size)
    {s : PumpState} (hs : GoodReach wp s) :
    0 ≤ s.locWindow ∧ 0 ≤ s.window ∧
      s.locWindow + s.window + s.sent = wp.size + s.credits ∧ s.credits ≤ s.sent := by
  induction hs with
  | init =>
    simp only [initPump]
    omega
  | step hr hstep hgood ih =>
    cases hstep <;> dsimp only [ptyReadRequest, goodRecv] at * <;> omega

/-- Whenever the worker is about to read from the pty, its local credit is
    at least the threshold. -/
theorem pumpReach_read_credit (wp : WindowParams) {s : PumpState}
    (hs : PumpReach wp s) (hpc : s.pc = .read) : wp.threshold ≤ s.locWindow := by
  induction hs with
  | init => simp [initPump] at hpc
  | step hr hstep ih => cases hstep <;> simp_all

/-! The claims. -/

/-- Claim C1: flow-control soundness.  In every reachable state of the
    PTY-to-socket worker interleaved with the IncreaseWindow handler, the
    cumulative bytes written to the data socket minus the credits received
    never exceed the configured window size, and equivalently the bytes
    sent never exceed the initial size plus the sum of all IncreaseWindow
    deltas received so far. -/
theorem flow_control_sound (wp : WindowParams) (hsize : 1 ≤ wp.size)
    (s : PumpState) (hs : PumpReach wp s) :
    s.sent - s.credits ≤ wp.size ∧ s.sent ≤ wp.size + s.credits := by
  have h := pumpReach_invariant wp hsize hs
  omega

theorem flow_control_sound_witness :
    (PumpState.mk .top 1 0 3 0).sent - (PumpState.mk .top 1 0 3 0).credits ≤
        (WindowParams.mk 4 2).size ∧
      (PumpState.mk .top 1 0 3 0).sent ≤
        (WindowParams.mk 4 2).size + (PumpState.mk .top 1 0 3 0).credits := by
  refine flow_control_sound ⟨4, 2⟩ (by decide) ⟨.top, 1, 0, 3, 0⟩ ?_
  have h0 : PumpReach ⟨4, 2⟩ ⟨.top, 4, 0, 0, 0⟩ := PumpReach.init
  have h1 : PumpReach ⟨4, 2⟩ ⟨.read, 4, 0, 0, 0⟩ :=
    PumpReach.step h0 (PumpStep.ready _ rfl (by decide))
  exact PumpReach.step h1 (PumpStep.send _ 3 rfl (by decide) (by decide))

/-- Claim C4: credit gating of pty reads.  Every read the worker issues
    against the pty happens with local credit at least the threshold, and
    the issued read consumes at most min(32 KiB, locWindow) bytes. -/
theorem pty_read_credit_gated (wp : WindowParams) (s t : PumpState) (n : Int)
    (hs : PumpReach wp s) (hstep : PumpStep wp (.send n) s t) :
    wp.threshold ≤ s.locWindow ∧ 1 ≤ n ∧ n ≤ min (32 * 1024) s.locWindow := by
  cases hstep with
  | send _ _ hpc hn hreq =>
    exact ⟨pumpReach_read_credit wp hs hpc, hn, by
      simpa [ptyReadRequest] using hreq⟩

theorem pty_read_credit_gated_witness :
    (WindowParams.mk 4 2).threshold ≤ (PumpState.mk .read 4 0 0 0).locWindow ∧
      (1 : Int) ≤ 3 ∧
      (3 : Int) ≤ min (32 * 1024) (PumpState.mk .read 4 0 0 0).locWindow := by
  refine pty_read_credit_gated ⟨4, 2⟩ ⟨.read, 4, 0, 0, 0⟩ ⟨.top, 1, 0, 3, 0⟩ 3 ?_ ?_
  · exact PumpReach.step PumpReach.init (PumpStep.ready _ rfl (by decide))
  · exact PumpStep.send _ 3 rfl (by decide) (by decide)

/-- Claim C3, counterexample: the control-reader assertion alone does not
    guarantee the fold invariant.  With size = threshold = 100, after the
    worker sends one byte a frontend may grant a 100-byte credit: the
    reader assertion 0 ≤ 100 ≤ size − window = 100 holds, yet the next
    exchange-to-zero fold drives the local counter to 199, above size, so
    the state below is reachable although its local credit exceeds size
    (the assert at wslbridge-backend.cc line 111 fires on this run). -/
theorem credit_range_counterexample :
    PumpReach ⟨100, 100⟩ ⟨.read, 199, 0, 1, 100⟩ ∧
      ¬ (PumpState.mk .read 199 0 1 100).locWindow ≤ (WindowParams.mk 100 100).size := by
  constructor
  · have h0 : PumpReach ⟨100, 100⟩ ⟨.top, 100, 0, 0, 0⟩ := PumpReach.init
    have h1 : PumpReach ⟨100, 100⟩ ⟨.read, 100, 0, 0, 0⟩ :=
      PumpReach.step h0 (PumpStep.ready _ rfl (by decide))
    have h2 : PumpReach ⟨100, 100⟩ ⟨.top, 99, 0, 1, 0⟩ :=
      PumpReach.step h1 (PumpStep.send _ 1 rfl (by decide) (by decide))
    have h3 : PumpReach ⟨100, 100⟩ ⟨.top, 99, 100, 1, 100⟩ :=
      PumpReach.step h2
        (PumpStep.recv _ 100 (by decide) (by decide) (by decide) (by decide))
    exact PumpReach.step h3 (PumpStep.foldReady _ rfl (by decide) (by decide))
  · decide

/-- Claim C3, amended: if moreover every received IncreaseWindow delta is
    bounded by the bytes in flight (sent minus credits already granted,
    i.e. the frontend only acknowledges bytes the backend sent), then at
    every reachable moment 0 ≤ locWindow ≤ size, the shared counter
    satisfies 0 ≤ window ≤ size − locWindow, and hence the exchange-to-zero
    fold never drives the local counter above size: both assertions at
    lines 111 and 153-154 hold. -/
theorem credit_range_good_frontend (wp : WindowParams) (hsize : 1 ≤ wp.size)
    (s : PumpState) (hs : GoodReach wp s) :
    0 ≤ s.locWindow ∧ s.locWindow ≤ wp.size ∧
      0 ≤ s.window ∧ s.window ≤ wp.size - s.locWindow := by
  have h := goodReach_invariant wp hsize hs
  omega

theorem credit_range_good_frontend_witness :
    0 ≤ (initPump ⟨4, 2⟩).locWindow ∧
      (initPump ⟨4, 2⟩).locWindow ≤ (WindowParams.mk 4 2).size ∧
      0 ≤ (initPump ⟨4, 2⟩).window ∧
      (initPump ⟨4, 2⟩).window ≤ (WindowParams.mk 4 2).size - (initPump ⟨4, 2⟩).locWindow :=
  credit_range_good_frontend ⟨4, 2⟩ (by decide) (initPump ⟨4, 2⟩) GoodReach.init

/-- Claim C2: control-packet codec correctness.  For every byte stream
    chopped into arbitrary successful reads, the reader dispatches exactly
    the sequence of whole fixed-size records contained in the stream, in
    arrival order, each exactly once; the trailing partial record is
    retained in the buffer, and every dispatched record is whole. -/
theorem control_codec_exact (chunks : List (List α)) :
    (readerRun chunks).dispatched = (splitPackets packetBytes chunks.flatten).1 ∧
      (readerRun chunks).acc = (splitPackets packetBytes chunks.flatten).2 ∧
      ∀ p, p ∈ (readerRun chunks).dispatched → p.length = packetBytes := by
  have key := readerRun_spec chunks
  refine ⟨key.1, key.2, ?_⟩
  intro p hp
  rw [key.1] at hp
  exact splitPackets_mem_length packetBytes chunks.flatten p hp

theorem control_codec_exact_witness :
    [0, 1, 2, 3, 4, 5, 6, 7] ∈ (readerRun [[0, 1, 2, 3, 4, 5, 6, 7, 8]]).dispatched ∧
      ([0, 1, 2, 3, 4, 5, 6, 7] : List Nat).length = packetBytes :=
  ⟨by decide,
    (control_codec_exact [[0, 1, 2, 3, 4, 5, 6, 7, 8]]).2.2
      [0, 1, 2, 3, 4, 5, 6, 7] (by decide)⟩

/-- Claim C10 (implicit): control-reader buffer safety.  At the start of
    every iteration of the reader loop the retained byte count is below one
    record size, hence below the 256-record buffer, so the next read
    requests a strictly positive number of bytes; and any successful read of
    at most the requested size keeps the accumulated total within the
    buffer, which is the assertion accum ≤ sizeof(buf) at SocketIo.h
    line 82 and keeps the trailing memmove in bounds. -/
theorem control_reader_buffer_safe (chunks : List (List α)) (amt : Nat) :
    (readerRun chunks).acc.length < packetBytes ∧
      0 < ctrlBufBytes - (readerRun chunks).acc.length ∧
      (amt ≤ ctrlBufBytes - (readerRun chunks).acc.length →
        (readerRun chunks).acc.length + amt ≤ ctrlBufBytes) := by
  have hacc := (readerRun_spec chunks).2
  have hlen : (readerRun chunks).acc.length < packetBytes := by
    rw [hacc, splitPackets_snd_length packetBytes (by decide) chunks.flatten]
    exact Nat.mod_lt _ (by decide)
  have hbuf : packetBytes < ctrlBufBytes := by decide
  exact ⟨hlen, by omega, by omega⟩

theorem control_reader_buffer_safe_witness :
    (readerRun ([] : List (List Nat))).acc.length + 5 ≤ ctrlBufBytes :=
  (control_reader_buffer_safe ([] : List (List Nat)) 5).2.2 (by decide)

/-- Claim C5: for every session that reaches child reap, exactly one
    ChildExitStatus packet is written to the control socket, and nothing is
    written to the control socket after it: the supervisor writes the
    single exit packet and writePacket at line 196 is the only packet
    writer to the control socket in the backend. -/
theorem child_exit_packet_once_last (st : Nat) :
    controlWritesOf (mainLoopEvents (.ok st)) = [childExitPacket st] ∧
      ∀ p, p ∈ controlWritesOf (mainLoopEvents (.ok st)) →
        p.type = childExitStatusTag := by
  constructor
  · rfl
  · intro p hp
    have hp2 : p = childExitPacket st := by
      simpa [mainLoopEvents, controlWritesOf] using hp
    rw [hp2]
    rfl

theorem child_exit_packet_once_last_witness :
    (childExitPacket 0).type = childExitStatusTag :=
  (child_exit_packet_once_last 0).2 (childExitPacket 0)
    (by simp [mainLoopEvents, controlWritesOf])

/-- Claim C6: exit-status mapping.  The payload of the ChildExitStatus
    packet equals the low 8 bits of the exit code when the child exited
    normally, and equals the literal 1 for any signalled termination. -/
theorem child_exit_status_mapping (code status : Nat) :
    (childExitPacket (encodeExited code)).u = ((code % 256 : Nat) : Int) ∧
      (wIfExited status = false → (childExitPacket status).u = 1) := by
  constructor
  · have hx : (code % 256 * 256) % 128 = 0 := by omega
    have hy : code % 256 * 256 / 256 % 256 = code % 256 := by omega
    simp [childExitPacket, decodedExitStatus, wIfExited, wExitStatus, encodeExited,
      hx, hy]
  · intro h
    simp [childExitPacket, decodedExitStatus, h]

theorem child_exit_status_mapping_witness :
    wIfExited 9 = false ∧ (childExitPacket 9).u = 1 :=
  ⟨by decide, (child_exit_status_mapping 0 9).2 (by decide)⟩

/-- Claim C7: backend process exit codes.  A successful session teardown is
    the only outcome with exit code 0, and every fatal error (broken
    connection, protocol violation, waitpid failure) exits with code 1. -/
theorem backend_exit_codes (o : SessionOutcome) :
    (backendExitCode o = 0 ↔ o = .cleanTeardown) ∧
      (backendExitCode o = 1 ↔ o ≠ .cleanTeardown) := by
  cases o <;> simp [backendExitCode]

theorem backend_exit_codes_witness :
    backendExitCode .connectionBroken = 1 :=
  (backend_exit_codes .connectionBroken).2.mpr (by decide)

/-- Claim C8: protocol-violation handling.  For every control packet whose
    discriminator is none of SetSize, IncreaseWindow, ChildExitStatus, the
    packet handler produces the fatal action: a diagnostic naming the
    offending type id on standard error and process termination with exit
    code 1. -/
theorem unknown_packet_fatal (p : Packet)
    (h0 : p.type ≠ setSizeTag) (h1 : p.type ≠ increaseWindowTag)
    (h2 : p.type ≠ childExitStatusTag) :
    handlePacket p =
      .fatalExit ("internal error: unexpected packet " ++ toString p.type) 1 := by
  simp [handlePacket, h0, h1]

theorem unknown_packet_fatal_witness :
    handlePacket ⟨255, 0⟩ =
      .fatalExit ("internal error: unexpected packet " ++ toString (255 : Int)) 1 :=
  unknown_packet_fatal ⟨255, 0⟩ (by decide) (by decide) (by decide)

/-- Claim C9, counterexample: in the IncreaseWindow handler the condition
    variable is NOT signalled while the window mutex is held: the
    notify_one at line 158 executes after the lock_guard scope closed at
    line 157, so at the notify event the held-lock count is zero. -/
theorem notify_not_under_mutex_counterexample :
    (increaseWindowSync 5)[3]? = some SyncEv.notifyOne ∧
      mutexHeldAt (increaseWindowSync 5) 3 = false := by
  decide

/-- Claim C9, amended: in every handling of an IncreaseWindow packet the
    shared-counter increment happens while the window mutex is held, and
    the condition variable is signalled exactly once, after the mutex has
    been released (not while it is held). -/
theorem increase_window_lock_order (iw : Int) :
    (increaseWindowSync iw)[1]? = some (SyncEv.addWindow iw) ∧
      mutexHeldAt (increaseWindowSync iw) 1 = true ∧
      (increaseWindowSync iw).count SyncEv.notifyOne = 1 ∧
      (increaseWindowSync iw)[3]? = some SyncEv.notifyOne ∧
      mutexHeldAt (increaseWindowSync iw) 3 = false :=
  ⟨rfl, rfl, rfl, rfl, rfl⟩
